import Mathlib

/-!
Shallow embedding of the seat-booking system (src/Booking.py).

Python dictionaries (EventSession.seats) are modelled as insertion-ordered
association lists with the dict semantics used by the code: lookup returns the
first entry with the key, assignment to an existing key replaces the value in
place, assignment to a new key appends.  Field mutation on a Seat object found
in the dict is modelled by replacing the value stored under the key through
which the object is reachable.  A call that would raise in Python (attribute
access on a None session) is modelled as `Except.error ()`; ordinary boolean
returns are `Except.ok`.  Python compares User objects by identity (no custom
equality is defined); distinct users are modelled as distinct User values.
ChangeSeat's three private fields `_old_seat_id`, `_old_status`, `_old_user`
are written together by `execute` and only ever read together, so they are
modelled as a single optional triple.
-/

namespace Booking

/-- SeatStatus enum: FREE, RESERVED, SOLD. -/
inductive SeatStatus : Type
  | free : SeatStatus
  | reserved : SeatStatus
  | sold : SeatStatus
deriving DecidableEq, Repr

/-- User: user_id and display name (Booking.py, class User). -/
structure User : Type where
  user_id : String
  name : String
deriving DecidableEq, Repr

/-- Seat: id, row, number, status, optional occupying user (class Seat). -/
structure Seat : Type where
  seat_id : String
  row : String
  number : Nat
  status : SeatStatus
  current_user : Option User
deriving DecidableEq, Repr

/-- Seat.__init__: a freshly constructed seat is FREE with no user. -/
def mkSeat (seat_id row : String) (number : Nat) : Seat :=
  { seat_id := seat_id, row := row, number := number,
    status := SeatStatus.free, current_user := none }

/-- dict lookup `self.seats.get(seat_id)`: first entry with the key. -/
def lookupAssoc (key : String) : List (String × Seat) → Option Seat
  | [] => none
  | p :: rest => if p.1 = key then some p.2 else lookupAssoc key rest

/-- dict assignment to an existing key: replace the value at the first
    occurrence of the key, keeping its position. -/
def updateAssoc (key : String) (seat : Seat) : List (String × Seat) → List (String × Seat)
  | [] => []
  | p :: rest => if p.1 = key then (p.1, seat) :: rest else p :: updateAssoc key seat rest

/-- EventSession: id, time, seat map (class EventSession). -/
structure EventSession : Type where
  session_id : String
  time : String
  seats : List (String × Seat)
deriving DecidableEq, Repr

/-- EventSession.__init__: empty seat map. -/
def mkEventSession (session_id time : String) : EventSession :=
  { session_id := session_id, time := time, seats := [] }

/-- EventSession.add_seat: `self.seats[seat.seat_id] = seat`. -/
def EventSession.add_seat (s : EventSession) (seat : Seat) : EventSession :=
  match lookupAssoc seat.seat_id s.seats with
  | some _ => { s with seats := updateAssoc seat.seat_id seat s.seats }
  | none => { s with seats := s.seats ++ [(seat.seat_id, seat)] }

/-- EventSession.get_seat: `self.seats.get(seat_id)`. -/
def EventSession.get_seat (s : EventSession) (seat_id : String) : Option Seat :=
  lookupAssoc seat_id s.seats

/-- Mutation of the seat object stored under `key` (Python mutates the object
    in place; the dict entry therefore refers to the new field values). -/
def EventSession.setSeat (s : EventSession) (key : String) (seat : Seat) : EventSession :=
  { s with seats := updateAssoc key seat s.seats }

/-- ReserveSeat.execute: seat must exist and be FREE; then RESERVED/user. -/
def ReserveSeat.execute (session : EventSession) (seat_id : String) (user : User) :
    Bool × EventSession :=
  match session.get_seat seat_id with
  | none => (false, session)
  | some seat =>
    if seat.status ≠ SeatStatus.free then (false, session)
    else (true, session.setSeat seat_id
      { seat with status := SeatStatus.reserved, current_user := some user })

/-- ReserveSeat.undo: with a None session the attribute access
    `session.get_seat` raises (modelled as error); otherwise the seat must
    exist, be RESERVED and occupied by the user; then FREE/None. -/
def ReserveSeat.undo (session : Option EventSession) (seat_id : String) (user : User) :
    Except Unit (Bool × Option EventSession) :=
  match session with
  | none => Except.error ()
  | some s =>
    match s.get_seat seat_id with
    | none => Except.ok (false, some s)
    | some seat =>
      if seat.status ≠ SeatStatus.reserved ∨ seat.current_user ≠ some user then
        Except.ok (false, some s)
      else
        Except.ok (true, some (s.setSeat seat_id
          { seat with status := SeatStatus.free, current_user := none }))

/-- CancelReservation.execute: seat RESERVED by this user; then FREE/None. -/
def CancelReservation.execute (session : EventSession) (seat_id : String) (user : User) :
    Bool × EventSession :=
  match session.get_seat seat_id with
  | none => (false, session)
  | some seat =>
    if seat.status ≠ SeatStatus.reserved ∨ seat.current_user ≠ some user then
      (false, session)
    else
      (true, session.setSeat seat_id
        { seat with status := SeatStatus.free, current_user := none })

/-- CancelReservation.undo: None session raises; else seat must exist and be
    FREE; then RESERVED/user. -/
def CancelReservation.undo (session : Option EventSession) (seat_id : String) (user : User) :
    Except Unit (Bool × Option EventSession) :=
  match session with
  | none => Except.error ()
  | some s =>
    match s.get_seat seat_id with
    | none => Except.ok (false, some s)
    | some seat =>
      if seat.status ≠ SeatStatus.free then Except.ok (false, some s)
      else
        Except.ok (true, some (s.setSeat seat_id
          { seat with status := SeatStatus.reserved, current_user := some user }))

/-- PurchaseTicket.execute: seat must exist and be FREE or RESERVED; then
    SOLD/user. -/
def PurchaseTicket.execute (session : EventSession) (seat_id : String) (user : User) :
    Bool × EventSession :=
  match session.get_seat seat_id with
  | none => (false, session)
  | some seat =>
    if seat.status ≠ SeatStatus.reserved ∧ seat.status ≠ SeatStatus.free then
      (false, session)
    else
      (true, session.setSeat seat_id
        { seat with status := SeatStatus.sold, current_user := some user })

/-- PurchaseTicket.undo: None session raises; else seat must exist, be SOLD
    and occupied by the user; then FREE/None. -/
def PurchaseTicket.undo (session : Option EventSession) (seat_id : String) (user : User) :
    Except Unit (Bool × Option EventSession) :=
  match session with
  | none => Except.error ()
  | some s =>
    match s.get_seat seat_id with
    | none => Except.ok (false, some s)
    | some seat =>
      if seat.status ≠ SeatStatus.sold ∨ seat.current_user ≠ some user then
        Except.ok (false, some s)
      else
        Except.ok (true, some (s.setSeat seat_id
          { seat with status := SeatStatus.free, current_user := none }))

/-- ChangeSeat's private memory (_old_seat_id, _old_status, _old_user):
    all None after __init__, all set together by a successful execute. -/
abbrev ChangeSeatState := Option (String × SeatStatus × User)

/-- The loop in ChangeSeat.execute: first seat (in dict insertion order) whose
    current_user is this user and whose status is RESERVED or SOLD. -/
def findUserSeat (user : User) : List (String × Seat) → Option (String × Seat)
  | [] => none
  | p :: rest =>
    if p.2.current_user = some user ∧
        (p.2.status = SeatStatus.reserved ∨ p.2.status = SeatStatus.sold) then
      some p
    else findUserSeat user rest

/-- ChangeSeat.execute: find the user's old seat, require the target FREE,
    record (old id, old status, user), free the old seat, move status and
    user onto the target. -/
def ChangeSeat.execute (st : ChangeSeatState) (session : EventSession)
    (new_seat_id : String) (user : User) :
    Bool × ChangeSeatState × EventSession :=
  match findUserSeat user session.seats with
  | none => (false, st, session)
  | some old_pair =>
    match session.get_seat new_seat_id with
    | none => (false, st, session)
    | some new_seat =>
      if new_seat.status ≠ SeatStatus.free then (false, st, session)
      else
        let session₁ := session.setSeat old_pair.1
          { old_pair.2 with status := SeatStatus.free, current_user := none }
        let session₂ := session₁.setSeat new_seat_id
          { new_seat with status := old_pair.2.status, current_user := some user }
        (true, some (old_pair.2.seat_id, old_pair.2.status, user), session₂)

/-- ChangeSeat.undo: fails if nothing is recorded; a None session then raises;
    otherwise both seats must exist, the target is freed and the old seat is
    unconditionally restored to the recorded status and user (the passed user
    argument is never read). -/
def ChangeSeat.undo (st : ChangeSeatState) (session : Option EventSession)
    (new_seat_id : String) (_user : User) :
    Except Unit (Bool × Option EventSession) :=
  match st with
  | none => Except.ok (false, session)
  | some (old_seat_id, old_status, old_user) =>
    match session with
    | none => Except.error ()
    | some s =>
      match s.get_seat old_seat_id, s.get_seat new_seat_id with
      | some old_seat, some new_seat =>
        let s₁ := s.setSeat new_seat_id
          { new_seat with status := SeatStatus.free, current_user := none }
        let s₂ := s₁.setSeat old_seat_id
          { old_seat with status := old_status, current_user := some old_user }
        Except.ok (true, some s₂)
      | _, _ => Except.ok (false, some s)

/-- The closed set of BookingCommand variants.  The three stateless variants
    carry nothing; ChangeSeat carries its recorded memory. -/
inductive Command : Type
  | reserveSeat : Command
  | cancelReservation : Command
  | purchaseTicket : Command
  | changeSeat : ChangeSeatState → Command
deriving DecidableEq, Repr

/-- Dynamic dispatch of execute over the command variants.  The returned
    Command is the (possibly updated) command instance. -/
def Command.execute : Command → EventSession → String → User → Bool × Command × EventSession
  | Command.reserveSeat, s, seat_id, user =>
    let r := ReserveSeat.execute s seat_id user
    (r.1, Command.reserveSeat, r.2)
  | Command.cancelReservation, s, seat_id, user =>
    let r := CancelReservation.execute s seat_id user
    (r.1, Command.cancelReservation, r.2)
  | Command.purchaseTicket, s, seat_id, user =>
    let r := PurchaseTicket.execute s seat_id user
    (r.1, Command.purchaseTicket, r.2)
  | Command.changeSeat st, s, seat_id, user =>
    let r := ChangeSeat.execute st s seat_id user
    (r.1, Command.changeSeat r.2.1, r.2.2)

/-- Dynamic dispatch of undo over the command variants. -/
def Command.undo : Command → Option EventSession → String → User →
    Except Unit (Bool × Option EventSession)
  | Command.reserveSeat, s, seat_id, user => ReserveSeat.undo s seat_id user
  | Command.cancelReservation, s, seat_id, user => CancelReservation.undo s seat_id user
  | Command.purchaseTicket, s, seat_id, user => PurchaseTicket.undo s seat_id user
  | Command.changeSeat st, s, seat_id, user => ChangeSeat.undo st s seat_id user

/-- BookingProcessor: the undo stack of (command, session_id, seat_id, user). -/
structure BookingProcessor : Type where
  hist : List (Command × String × String × User)
deriving DecidableEq, Repr

/-- BookingProcessor.__init__: empty history. -/
def mkBookingProcessor : BookingProcessor := { hist := [] }

/-- BookingProcessor.execute_command: run execute; on success append
    (command, session.session_id, seat_id, user) to the history.  The pushed
    command is the same object execute just updated. -/
def BookingProcessor.execute_command (p : BookingProcessor) (command : Command)
    (session : EventSession) (seat_id : String) (user : User) :
    Bool × Command × BookingProcessor × EventSession :=
  let r := command.execute session seat_id user
  if r.1 then
    (true, r.2.1, { hist := p.hist ++ [(r.2.1, session.session_id, seat_id, user)] }, r.2.2)
  else
    (false, r.2.1, p, r.2.2)

/-- BookingProcessor.undo_last: empty history returns False; otherwise pop the
    most recent entry and call its undo with session = None.  An exception
    raised inside undo propagates (Except.error). -/
def BookingProcessor.undo_last (p : BookingProcessor) : Except Unit (Bool × BookingProcessor) :=
  match p.hist.getLast? with
  | none => Except.ok (false, p)
  | some (command, _sid, seat_id, user) =>
    match command.undo none seat_id user with
    | Except.error e => Except.error e
    | Except.ok (b, _) => Except.ok (b, { hist := p.hist.dropLast })

/-- Well-formedness every Python-constructible session has: dict keys are
    unique, and each seat is stored under its own seat_id (add_seat always
    keys by seat.seat_id). -/
def wfSession (s : EventSession) : Prop :=
  (s.seats.map Prod.fst).Nodup ∧ ∀ p ∈ s.seats, p.1 = p.2.seat_id
/-- The specified invariant: a seat is FREE exactly when it has no occupant. -/
def seatInvariant (seat : Seat) : Prop :=
  seat.status = SeatStatus.free ↔ seat.current_user = none
/-- Every seat stored in the session satisfies the invariant. -/
def sessionInvariant (s : EventSession) : Prop := ∀ p ∈ s.seats, seatInvariant p.2
/-- Command-instance invariant: a ChangeSeat memory recorded by execute never
    holds a FREE old status (execute only records RESERVED or SOLD). -/
def commandInvariant : Command → Prop
  | Command.changeSeat (some (_, st, _)) => st ≠ SeatStatus.free
  | _ => True
/-- A command as constructed by the caller: the stateless variants, or
    ChangeSeat straight after __init__ (all memory fields None). -/
def freshCommand : Command → Prop
  | Command.changeSeat st => st = none
  | _ => True
/-- States reachable from a fresh session through the public API: adding
    freshly constructed seats and commands, and running any command's execute
    or undo.  Only an undo given an actual session can change a session: with
    a None session every undo either raises or (ChangeSeat with empty memory)
    returns False untouched, and the processor's calls are exactly these. -/
inductive Reachable : EventSession → List Command → Prop
  | init (session_id time : String) : Reachable (mkEventSession session_id time) []
  | newCommand {s : EventSession} {cs : List Command} (c : Command) (hfresh : freshCommand c)
      (h : Reachable s cs) : Reachable s (c :: cs)
  | addSeat {s : EventSession} {cs : List Command} (seat_id row : String) (number : Nat)
      (h : Reachable s cs) : Reachable (s.add_seat (mkSeat seat_id row number)) cs
  | execStep {s : EventSession} {cs : List Command} {c : Command} (i : Nat) (seat_id : String)
      (user : User) (hc : cs.get? i = some c) (h : Reachable s cs) :
      Reachable (c.execute s seat_id user).2.2 (cs.set i (c.execute s seat_id user).2.1)
  | undoStep {s : EventSession} {cs : List Command} {c : Command} (i : Nat) (seat_id : String)
      (user : User) {b : Bool} {s' : EventSession} (hc : cs.get? i = some c)
      (hr : c.undo (some s) seat_id user = Except.ok (b, some s')) (h : Reachable s cs) :
      Reachable s' cs

/-- Concrete fixtures for evaluating the definitions on closed inputs. -/
def userU1 : User := { user_id := "u1", name := "Olga" }

def userU2 : User := { user_id := "u2", name := "Ivan" }

/-- A seat currently RESERVED by userU1. -/
def seatA1r : Seat :=
  { seat_id := "A1", row := "A", number := 1,
    status := SeatStatus.reserved, current_user := some userU1 }

/-- A seat currently SOLD to userU1. -/
def seatB1s : Seat :=
  { seat_id := "B1", row := "B", number := 1,
    status := SeatStatus.sold, current_user := some userU1 }

/-- A small session: A1 RESERVED by userU1, A2 FREE, B1 SOLD to userU1. -/
def sessionAB : EventSession :=
  { session_id := "s1", time := "2026-02-01 19:00",
    seats := [("A1", seatA1r), ("A2", mkSeat "A2" "A" 2), ("B1", seatB1s)] }

/-! ### Association-list lemmas (dict reasoning) -/

theorem lookup_updateAssoc_self (key : String) (seat : Seat) (l : List (String × Seat)) :
    lookupAssoc key (updateAssoc key seat l) = (lookupAssoc key l).map (fun _ => seat) := by
  induction l with
  | nil => rfl
  | cons p rest ih =>
    by_cases hp : p.1 = key
    · simp [lookupAssoc, updateAssoc, hp]
    · simp [lookupAssoc, updateAssoc, hp, ih]

theorem lookup_updateAssoc_ne (k key : String) (seat : Seat) (l : List (String × Seat))
    (h : k ≠ key) : lookupAssoc k (updateAssoc key seat l) = lookupAssoc k l := by
  induction l with
  | nil => rfl
  | cons p rest ih =>
    by_cases hp : p.1 = key
    · have hk : ¬ p.1 = k := by rw [hp]; exact fun hh => h hh.symm
      simp [lookupAssoc, updateAssoc, hp, hk, Ne.symm h]
    · by_cases hk : p.1 = k <;> simp [lookupAssoc, updateAssoc, hp, hk, ih, h]

theorem mem_updateAssoc (key : String) (seat : Seat) (l : List (String × Seat))
    (q : String × Seat) (hq : q ∈ updateAssoc key seat l) : q ∈ l ∨ q = (key, seat) := by
  induction l with
  | nil => simp [updateAssoc] at hq
  | cons p rest ih =>
    by_cases hp : p.1 = key
    · simp only [updateAssoc, if_pos hp, List.mem_cons] at hq
      rcases hq with h1 | h2
      · right; rw [h1, hp]
      · left; exact List.mem_cons_of_mem _ h2
    · simp only [updateAssoc, if_neg hp, List.mem_cons] at hq
      rcases hq with h1 | h2
      · left; exact h1 ▸ List.mem_cons_self _ _
      · rcases ih h2 with h3 | h4
        · left; exact List.mem_cons_of_mem _ h3
        · right; exact h4

theorem map_fst_updateAssoc (key : String) (seat : Seat) (l : List (String × Seat)) :
    (updateAssoc key seat l).map Prod.fst = l.map Prod.fst := by
  induction l with
  | nil => rfl
  | cons p rest ih => by_cases hp : p.1 = key <;> simp [updateAssoc, hp, ih]

theorem lookupAssoc_eq_none_iff (key : String) (l : List (String × Seat)) :
    lookupAssoc key l = none ↔ ∀ p ∈ l, p.1 ≠ key := by
  induction l with
  | nil => simp [lookupAssoc]
  | cons p rest ih => by_cases hp : p.1 = key <;> simp [lookupAssoc, hp, ih]

theorem lookup_of_mem_nodup (l : List (String × Seat)) (p : String × Seat)
    (hmem : p ∈ l) (hnd : (l.map Prod.fst).Nodup) : lookupAssoc p.1 l = some p.2 := by
  induction l with
  | nil => cases hmem
  | cons q rest ih =>
    simp only [List.map_cons, List.nodup_cons] at hnd
    rcases List.mem_cons.mp hmem with rfl | hm
    · simp [lookupAssoc]
    · have hq : ¬ q.1 = p.1 := by
        intro he
        exact hnd.1 (he ▸ List.mem_map_of_mem Prod.fst hm)
      simp [lookupAssoc, hq, ih hm hnd.2]

theorem findUserSeat_spec (user : User) (l : List (String × Seat)) (p : String × Seat)
    (h : findUserSeat user l = some p) :
    p ∈ l ∧ p.2.current_user = some user ∧
      (p.2.status = SeatStatus.reserved ∨ p.2.status = SeatStatus.sold) := by
  induction l with
  | nil => simp [findUserSeat] at h
  | cons q rest ih =>
    by_cases hq : q.2.current_user = some user ∧
        (q.2.status = SeatStatus.reserved ∨ q.2.status = SeatStatus.sold)
    · rw [findUserSeat, if_pos hq] at h
      cases h
      exact ⟨List.mem_cons_self _ _, hq.1, hq.2⟩
    · rw [findUserSeat, if_neg hq] at h
      obtain ⟨hm, h2, h3⟩ := ih h
      exact ⟨List.mem_cons_of_mem _ hm, h2, h3⟩

theorem findUserSeat_eq_none (user : User) (l : List (String × Seat))
    (h : ∀ p ∈ l, ¬ (p.2.current_user = some user ∧
      (p.2.status = SeatStatus.reserved ∨ p.2.status = SeatStatus.sold))) :
    findUserSeat user l = none := by
  induction l with
  | nil => rfl
  | cons q rest ih =>
    rw [findUserSeat, if_neg (h q (List.mem_cons_self _ _))]
    exact ih (fun p hp => h p (List.mem_cons_of_mem _ hp))

/-! ### Session-level lemmas -/

theorem get_seat_setSeat_self (s : EventSession) (key : String) (seat₀ seat : Seat)
    (h : s.get_seat key = some seat₀) : (s.setSeat key seat).get_seat key = some seat := by
  unfold EventSession.get_seat EventSession.setSeat at *
  simp [lookup_updateAssoc_self, h]

theorem get_seat_setSeat_ne (s : EventSession) (k key : String) (seat : Seat) (h : k ≠ key) :
    (s.setSeat key seat).get_seat k = s.get_seat k :=
  lookup_updateAssoc_ne k key seat s.seats h


theorem wfSession_setSeat (s : EventSession) (key : String) (seat : Seat)
    (hwf : wfSession s) (hid : key = seat.seat_id) : wfSession (s.setSeat key seat) := by
  constructor
  · show ((updateAssoc key seat s.seats).map Prod.fst).Nodup
    rw [map_fst_updateAssoc]
    exact hwf.1
  · intro p hp
    rcases mem_updateAssoc key seat s.seats p hp with hm | rfl
    · exact hwf.2 p hm
    · exact hid

theorem wfSession_add_seat (s : EventSession) (seat : Seat) (hwf : wfSession s) :
    wfSession (s.add_seat seat) := by
  unfold EventSession.add_seat
  cases hlk : lookupAssoc seat.seat_id s.seats with
  | some seat₀ => exact wfSession_setSeat s seat.seat_id seat hwf rfl
  | none =>
    constructor
    · show ((s.seats ++ [(seat.seat_id, seat)]).map Prod.fst).Nodup
      rw [List.map_append]
      refine List.Nodup.append hwf.1 (List.nodup_singleton _) ?_
      intro a ha hb
      simp only [List.map_cons, List.map_nil, List.mem_singleton] at hb
      subst hb
      rcases List.mem_map.mp ha with ⟨p, hp, hfst⟩
      exact ((lookupAssoc_eq_none_iff _ _).mp hlk p hp) hfst
    · intro p hp
      rcases List.mem_append.mp hp with hm | hm
      · exact hwf.2 p hm
      · simp only [List.mem_singleton] at hm
        rw [hm]

/-! ### The seat invariant -/


theorem sessionInvariant_setSeat (s : EventSession) (key : String) (seat : Seat)
    (hs : sessionInvariant s) (hseat : seatInvariant seat) :
    sessionInvariant (s.setSeat key seat) := by
  intro q hq
  rcases mem_updateAssoc key seat s.seats q hq with hm | rfl
  · exact hs q hm
  · exact hseat


theorem commandInvariant_of_fresh (c : Command) (h : freshCommand c) : commandInvariant c := by
  cases c with
  | reserveSeat => trivial
  | cancelReservation => trivial
  | purchaseTicket => trivial
  | changeSeat st => rw [show st = none from h]; trivial

theorem sessionInvariant_add_seat (s : EventSession) (seat : Seat)
    (hs : sessionInvariant s) (hseat : seatInvariant seat) :
    sessionInvariant (s.add_seat seat) := by
  unfold EventSession.add_seat
  cases hlk : lookupAssoc seat.seat_id s.seats with
  | some seat₀ => exact sessionInvariant_setSeat s seat.seat_id seat hs hseat
  | none =>
    intro p hp
    rcases List.mem_append.mp hp with hm | hm
    · exact hs p hm
    · simp only [List.mem_singleton] at hm
      rw [hm]
      exact hseat

theorem execute_preserves_invariant (c : Command) (s : EventSession) (seat_id : String)
    (user : User) (hs : sessionInvariant s) (hc : commandInvariant c) :
    sessionInvariant (c.execute s seat_id user).2.2 ∧
      commandInvariant (c.execute s seat_id user).2.1 := by
  cases c with
  | reserveSeat =>
    refine ⟨?_, trivial⟩
    show sessionInvariant (ReserveSeat.execute s seat_id user).2
    unfold ReserveSeat.execute
    cases hlk : s.get_seat seat_id with
    | none => exact hs
    | some seat =>
      by_cases hst : seat.status ≠ SeatStatus.free
      · simp only [if_pos hst]
        exact hs
      · simp only [if_neg hst]
        exact sessionInvariant_setSeat _ _ _ hs (by simp [seatInvariant])
  | cancelReservation =>
    refine ⟨?_, trivial⟩
    show sessionInvariant (CancelReservation.execute s seat_id user).2
    unfold CancelReservation.execute
    cases hlk : s.get_seat seat_id with
    | none => exact hs
    | some seat =>
      by_cases hst : seat.status ≠ SeatStatus.reserved ∨ seat.current_user ≠ some user
      · simp only [if_pos hst]
        exact hs
      · simp only [if_neg hst]
        exact sessionInvariant_setSeat _ _ _ hs (by simp [seatInvariant])
  | purchaseTicket =>
    refine ⟨?_, trivial⟩
    show sessionInvariant (PurchaseTicket.execute s seat_id user).2
    unfold PurchaseTicket.execute
    cases hlk : s.get_seat seat_id with
    | none => exact hs
    | some seat =>
      by_cases hst : seat.status ≠ SeatStatus.reserved ∧ seat.status ≠ SeatStatus.free
      · simp only [if_pos hst]
        exact hs
      · simp only [if_neg hst]
        exact sessionInvariant_setSeat _ _ _ hs (by simp [seatInvariant])
  | changeSeat st =>
    show sessionInvariant (ChangeSeat.execute st s seat_id user).2.2 ∧
      commandInvariant (Command.changeSeat (ChangeSeat.execute st s seat_id user).2.1)
    unfold ChangeSeat.execute
    cases hfind : findUserSeat user s.seats with
    | none => exact ⟨hs, hc⟩
    | some old_pair =>
      obtain ⟨hmem, hocc, hstat⟩ := findUserSeat_spec user s.seats old_pair hfind
      cases hlk : s.get_seat seat_id with
      | none => exact ⟨hs, hc⟩
      | some new_seat =>
        by_cases hst : new_seat.status ≠ SeatStatus.free
        · simp only [if_pos hst]
          exact ⟨hs, hc⟩
        · simp only [if_neg hst]
          constructor
          · refine sessionInvariant_setSeat _ _ _ ?_ ?_
            · exact sessionInvariant_setSeat _ _ _ hs (by simp [seatInvariant])
            · show old_pair.2.status = SeatStatus.free ↔ (some user : Option User) = none
              rcases hstat with h1 | h1 <;> simp [h1]
          · show old_pair.2.status ≠ SeatStatus.free
            rcases hstat with h1 | h1 <;> simp [h1]

theorem undo_preserves_invariant (c : Command) (s : EventSession) (seat_id : String)
    (user : User) (b : Bool) (s' : EventSession) (hs : sessionInvariant s)
    (hc : commandInvariant c)
    (hr : c.undo (some s) seat_id user = Except.ok (b, some s')) :
    sessionInvariant s' := by
  cases c with
  | reserveSeat =>
    simp only [Command.undo, ReserveSeat.undo] at hr
    cases hlk : s.get_seat seat_id with
    | none =>
      simp only [hlk] at hr
      simp only [Except.ok.injEq, Prod.mk.injEq, Option.some.injEq] at hr
      rw [← hr.2]
      exact hs
    | some seat =>
      simp only [hlk] at hr
      by_cases hst : seat.status ≠ SeatStatus.reserved ∨ seat.current_user ≠ some user
      · rw [if_pos hst] at hr
        simp only [Except.ok.injEq, Prod.mk.injEq, Option.some.injEq] at hr
        rw [← hr.2]
        exact hs
      · rw [if_neg hst] at hr
        simp only [Except.ok.injEq, Prod.mk.injEq, Option.some.injEq] at hr
        rw [← hr.2]
        exact sessionInvariant_setSeat _ _ _ hs (by simp [seatInvariant])
  | cancelReservation =>
    simp only [Command.undo, CancelReservation.undo] at hr
    cases hlk : s.get_seat seat_id with
    | none =>
      simp only [hlk] at hr
      simp only [Except.ok.injEq, Prod.mk.injEq, Option.some.injEq] at hr
      rw [← hr.2]
      exact hs
    | some seat =>
      simp only [hlk] at hr
      by_cases hst : seat.status ≠ SeatStatus.free
      · rw [if_pos hst] at hr
        simp only [Except.ok.injEq, Prod.mk.injEq, Option.some.injEq] at hr
        rw [← hr.2]
        exact hs
      · rw [if_neg hst] at hr
        simp only [Except.ok.injEq, Prod.mk.injEq, Option.some.injEq] at hr
        rw [← hr.2]
        exact sessionInvariant_setSeat _ _ _ hs (by simp [seatInvariant])
  | purchaseTicket =>
    simp only [Command.undo, PurchaseTicket.undo] at hr
    cases hlk : s.get_seat seat_id with
    | none =>
      simp only [hlk] at hr
      simp only [Except.ok.injEq, Prod.mk.injEq, Option.some.injEq] at hr
      rw [← hr.2]
      exact hs
    | some seat =>
      simp only [hlk] at hr
      by_cases hst : seat.status ≠ SeatStatus.sold ∨ seat.current_user ≠ some user
      · rw [if_pos hst] at hr
        simp only [Except.ok.injEq, Prod.mk.injEq, Option.some.injEq] at hr
        rw [← hr.2]
        exact hs
      · rw [if_neg hst] at hr
        simp only [Except.ok.injEq, Prod.mk.injEq, Option.some.injEq] at hr
        rw [← hr.2]
        exact sessionInvariant_setSeat _ _ _ hs (by simp [seatInvariant])
  | changeSeat st =>
    simp only [Command.undo] at hr
    cases st with
    | none =>
      simp only [ChangeSeat.undo] at hr
      simp only [Except.ok.injEq, Prod.mk.injEq, Option.some.injEq] at hr
      rw [← hr.2]
      exact hs
    | some rec =>
      obtain ⟨old_seat_id, old_status, old_user⟩ := rec
      simp only [ChangeSeat.undo] at hr
      have hcst : old_status ≠ SeatStatus.free := hc
      cases hold : s.get_seat old_seat_id with
      | none =>
        simp only [hold] at hr
        simp only [Except.ok.injEq, Prod.mk.injEq, Option.some.injEq] at hr
        rw [← hr.2]
        exact hs
      | some old_seat =>
        cases hnew : s.get_seat seat_id with
        | none =>
          simp only [hold, hnew] at hr
          simp only [Except.ok.injEq, Prod.mk.injEq, Option.some.injEq] at hr
          rw [← hr.2]
          exact hs
        | some new_seat =>
          simp only [hold, hnew] at hr
          simp only [Except.ok.injEq, Prod.mk.injEq, Option.some.injEq] at hr
          rw [← hr.2]
          refine sessionInvariant_setSeat _ _ _ ?_ ?_
          · exact sessionInvariant_setSeat _ _ _ hs (by simp [seatInvariant])
          · show old_status = SeatStatus.free ↔ (some old_user : Option User) = none
            simp [hcst]


theorem reachable_invariant {s : EventSession} {cs : List Command} (h : Reachable s cs) :
    sessionInvariant s ∧ ∀ c ∈ cs, commandInvariant c := by
  induction h with
  | init sid t =>
    constructor
    · intro p hp
      simp [mkEventSession] at hp
    · intro c hc
      cases hc
  | newCommand c hfresh h ih =>
    refine ⟨ih.1, ?_⟩
    intro c' hc'
    rcases List.mem_cons.mp hc' with rfl | hm
    · exact commandInvariant_of_fresh c' hfresh
    · exact ih.2 c' hm
  | addSeat seat_id row number h ih =>
    exact ⟨sessionInvariant_add_seat _ _ ih.1 (by simp [seatInvariant, mkSeat]), ih.2⟩
  | execStep i seat_id user hc h ih =>
    have hci := ih.2 _ (List.get?_mem hc)
    have hpres := execute_preserves_invariant _ _ seat_id user ih.1 hci
    refine ⟨hpres.1, ?_⟩
    intro c' hc'
    rcases List.mem_or_eq_of_mem_set hc' with hm | rfl
    · exact ih.2 c' hm
    · exact hpres.2
  | undoStep i seat_id user hc hr h ih =>
    exact ⟨undo_preserves_invariant _ _ seat_id user _ _ ih.1 (ih.2 _ (List.get?_mem hc)) hr,
      ih.2⟩


theorem lookupAssoc_some_mem (key : String) (l : List (String × Seat)) (seat : Seat)
    (h : lookupAssoc key l = some seat) : (key, seat) ∈ l := by
  induction l with
  | nil => cases h
  | cons p rest ih =>
    obtain ⟨k0, s0⟩ := p
    simp only [lookupAssoc] at h
    by_cases hp : k0 = key
    · rw [if_pos hp] at h
      injection h with h2
      subst hp
      subst h2
      exact List.mem_cons_self _ _
    · rw [if_neg hp] at h
      exact List.mem_cons_of_mem _ (ih h)

theorem get_seat_wf_seat_id (s : EventSession) (key : String) (seat : Seat)
    (hwf : wfSession s) (h : s.get_seat key = some seat) : seat.seat_id = key :=
  (hwf.2 _ (lookupAssoc_some_mem key s.seats seat h)).symm

/-- Every command execute keeps the session well-formed: all mutations write
    a field-updated copy of the seat back under the key it was found at. -/
theorem execute_preserves_wf (c : Command) (s : EventSession) (seat_id : String)
    (user : User) (hwf : wfSession s) : wfSession (c.execute s seat_id user).2.2 := by
  cases c with
  | reserveSeat =>
    show wfSession (ReserveSeat.execute s seat_id user).2
    cases hlk : s.get_seat seat_id with
    | none => simp only [ReserveSeat.execute, hlk]; exact hwf
    | some seat =>
      by_cases hst : seat.status ≠ SeatStatus.free
      · simp only [ReserveSeat.execute, hlk, if_pos hst]; exact hwf
      · simp only [ReserveSeat.execute, hlk, if_neg hst]
        exact wfSession_setSeat s seat_id _ hwf
          (get_seat_wf_seat_id s seat_id seat hwf hlk).symm
  | cancelReservation =>
    show wfSession (CancelReservation.execute s seat_id user).2
    cases hlk : s.get_seat seat_id with
    | none => simp only [CancelReservation.execute, hlk]; exact hwf
    | some seat =>
      by_cases hst : seat.status ≠ SeatStatus.reserved ∨ seat.current_user ≠ some user
      · simp only [CancelReservation.execute, hlk, if_pos hst]; exact hwf
      · simp only [CancelReservation.execute, hlk, if_neg hst]
        exact wfSession_setSeat s seat_id _ hwf
          (get_seat_wf_seat_id s seat_id seat hwf hlk).symm
  | purchaseTicket =>
    show wfSession (PurchaseTicket.execute s seat_id user).2
    cases hlk : s.get_seat seat_id with
    | none => simp only [PurchaseTicket.execute, hlk]; exact hwf
    | some seat =>
      by_cases hst : seat.status ≠ SeatStatus.reserved ∧ seat.status ≠ SeatStatus.free
      · simp only [PurchaseTicket.execute, hlk, if_pos hst]; exact hwf
      · simp only [PurchaseTicket.execute, hlk, if_neg hst]
        exact wfSession_setSeat s seat_id _ hwf
          (get_seat_wf_seat_id s seat_id seat hwf hlk).symm
  | changeSeat st =>
    show wfSession (ChangeSeat.execute st s seat_id user).2.2
    cases hfind : findUserSeat user s.seats with
    | none => simp only [ChangeSeat.execute, hfind]; exact hwf
    | some old_pair =>
      obtain ⟨hmem, hocc, hstat⟩ := findUserSeat_spec user s.seats old_pair hfind
      cases hlk : s.get_seat seat_id with
      | none => simp only [ChangeSeat.execute, hfind, hlk]; exact hwf
      | some new_seat =>
        by_cases hst : new_seat.status ≠ SeatStatus.free
        · simp only [ChangeSeat.execute, hfind, hlk, if_pos hst]; exact hwf
        · simp only [ChangeSeat.execute, hfind, hlk, if_neg hst]
          refine wfSession_setSeat _ seat_id _ ?_
            (get_seat_wf_seat_id s seat_id new_seat hwf hlk).symm
          exact wfSession_setSeat s old_pair.1 _ hwf (hwf.2 old_pair hmem)

/-- Every command undo given an actual session keeps it well-formed. -/
theorem undo_preserves_wf (c : Command) (s : EventSession) (seat_id : String)
    (user : User) (b : Bool) (s' : EventSession) (hwf : wfSession s)
    (hr : c.undo (some s) seat_id user = Except.ok (b, some s')) : wfSession s' := by
  cases c with
  | reserveSeat =>
    simp only [Command.undo, ReserveSeat.undo] at hr
    cases hlk : s.get_seat seat_id with
    | none =>
      simp only [hlk, Except.ok.injEq, Prod.mk.injEq, Option.some.injEq] at hr
      rw [← hr.2]; exact hwf
    | some seat =>
      simp only [hlk] at hr
      by_cases hst : seat.status ≠ SeatStatus.reserved ∨ seat.current_user ≠ some user
      · rw [if_pos hst] at hr
        simp only [Except.ok.injEq, Prod.mk.injEq, Option.some.injEq] at hr
        rw [← hr.2]; exact hwf
      · rw [if_neg hst] at hr
        simp only [Except.ok.injEq, Prod.mk.injEq, Option.some.injEq] at hr
        rw [← hr.2]
        exact wfSession_setSeat s seat_id _ hwf
          (get_seat_wf_seat_id s seat_id seat hwf hlk).symm
  | cancelReservation =>
    simp only [Command.undo, CancelReservation.undo] at hr
    cases hlk : s.get_seat seat_id with
    | none =>
      simp only [hlk, Except.ok.injEq, Prod.mk.injEq, Option.some.injEq] at hr
      rw [← hr.2]; exact hwf
    | some seat =>
      simp only [hlk] at hr
      by_cases hst : seat.status ≠ SeatStatus.free
      · rw [if_pos hst] at hr
        simp only [Except.ok.injEq, Prod.mk.injEq, Option.some.injEq] at hr
        rw [← hr.2]; exact hwf
      · rw [if_neg hst] at hr
        simp only [Except.ok.injEq, Prod.mk.injEq, Option.some.injEq] at hr
        rw [← hr.2]
        exact wfSession_setSeat s seat_id _ hwf
          (get_seat_wf_seat_id s seat_id seat hwf hlk).symm
  | purchaseTicket =>
    simp only [Command.undo, PurchaseTicket.undo] at hr
    cases hlk : s.get_seat seat_id with
    | none =>
      simp only [hlk, Except.ok.injEq, Prod.mk.injEq, Option.some.injEq] at hr
      rw [← hr.2]; exact hwf
    | some seat =>
      simp only [hlk] at hr
      by_cases hst : seat.status ≠ SeatStatus.sold ∨ seat.current_user ≠ some user
      · rw [if_pos hst] at hr
        simp only [Except.ok.injEq, Prod.mk.injEq, Option.some.injEq] at hr
        rw [← hr.2]; exact hwf
      · rw [if_neg hst] at hr
        simp only [Except.ok.injEq, Prod.mk.injEq, Option.some.injEq] at hr
        rw [← hr.2]
        exact wfSession_setSeat s seat_id _ hwf
          (get_seat_wf_seat_id s seat_id seat hwf hlk).symm
  | changeSeat st =>
    simp only [Command.undo] at hr
    cases st with
    | none =>
      simp only [ChangeSeat.undo] at hr
      simp only [Except.ok.injEq, Prod.mk.injEq, Option.some.injEq] at hr
      rw [← hr.2]; exact hwf
    | some rec =>
      obtain ⟨old_seat_id, old_status, old_user⟩ := rec
      simp only [ChangeSeat.undo] at hr
      cases hold : s.get_seat old_seat_id with
      | none =>
        simp only [hold, Except.ok.injEq, Prod.mk.injEq, Option.some.injEq] at hr
        rw [← hr.2]; exact hwf
      | some old_seat =>
        cases hnew : s.get_seat seat_id with
        | none =>
          simp only [hold, hnew, Except.ok.injEq, Prod.mk.injEq, Option.some.injEq] at hr
          rw [← hr.2]; exact hwf
        | some new_seat =>
          simp only [hold, hnew, Except.ok.injEq, Prod.mk.injEq, Option.some.injEq] at hr
          rw [← hr.2]
          refine wfSession_setSeat _ old_seat_id _ ?_
            (get_seat_wf_seat_id s old_seat_id old_seat hwf hold).symm
          exact wfSession_setSeat s seat_id _ hwf
            (get_seat_wf_seat_id s seat_id new_seat hwf hnew).symm

/-- Every session reachable through the public API is well-formed, so the
    well-formedness hypotheses below hold for every session a caller can
    actually build. -/
theorem reachable_wf {s : EventSession} {cs : List Command} (h : Reachable s cs) :
    wfSession s := by
  induction h with
  | init sid t =>
    exact ⟨List.nodup_nil, fun p hp => by cases hp⟩
  | newCommand c hfresh h ih => exact ih
  | addSeat seat_id row number h ih => exact wfSession_add_seat _ _ ih
  | execStep i seat_id user hc h ih => exact execute_preserves_wf _ _ seat_id user ih
  | undoStep i seat_id user hc hr h ih => exact undo_preserves_wf _ _ seat_id user _ _ ih hr

/-! ### Claim theorems -/

/-- C5: a newly constructed Seat is FREE with no occupant, and in every state
    reachable from freshly constructed seats and commands by any sequence of
    execute and undo operations, every seat satisfies the biconditional
    status = FREE ↔ occupant = None. -/
theorem seat_invariant_reachable :
    (∀ seat_id row number, (mkSeat seat_id row number).status = SeatStatus.free ∧
        (mkSeat seat_id row number).current_user = none ∧
        seatInvariant (mkSeat seat_id row number)) ∧
    ∀ (s : EventSession) (cs : List Command), Reachable s cs → sessionInvariant s := by
  constructor
  · intro seat_id row number
    exact ⟨rfl, rfl, by simp [seatInvariant, mkSeat]⟩
  · intro s cs h
    exact (reachable_invariant h).1

theorem seat_invariant_reachable_witness :
    sessionInvariant ((mkEventSession "s1" "2026-02-01 19:00").add_seat (mkSeat "A1" "A" 1)) :=
  seat_invariant_reachable.2 _ []
    (Reachable.addSeat "A1" "A" 1 (Reachable.init "s1" "2026-02-01 19:00"))

/-- C1: evaluation at the failing input.  A ReserveSeat submitted through
    execute_command succeeds, and the very next undo_last raises (the popped
    command's undo dereferences the None session) instead of returning a
    boolean. -/
theorem undo_last_raises_on_nonempty_history :
    (mkBookingProcessor.execute_command Command.reserveSeat
        ((mkEventSession "s1" "2026-02-01 19:00").add_seat (mkSeat "A1" "A" 1)) "A1"
        { user_id := "u1", name := "Olga" }).1 = true ∧
    (mkBookingProcessor.execute_command Command.reserveSeat
        ((mkEventSession "s1" "2026-02-01 19:00").add_seat (mkSeat "A1" "A" 1)) "A1"
        { user_id := "u1", name := "Olga" }).2.2.1.undo_last = Except.error () :=
  ⟨rfl, rfl⟩

/-- A command that just executed successfully always raises when its undo is
    invoked with a None session: the stateless variants dereference the
    session at once, and a ChangeSeat that succeeded has recorded memory, so
    its undo passes the memory check and dereferences the session too. -/
theorem executed_command_undo_none_raises (c : Command) (s : EventSession)
    (seat_id : String) (user : User) (h : (c.execute s seat_id user).1 = true)
    (seat_id' : String) (user' : User) :
    (c.execute s seat_id user).2.1.undo none seat_id' user' = Except.error () := by
  cases c with
  | reserveSeat => rfl
  | cancelReservation => rfl
  | purchaseTicket => rfl
  | changeSeat st =>
    simp only [Command.execute, Command.undo, ChangeSeat.execute] at h ⊢
    cases hfind : findUserSeat user s.seats with
    | none => simp [hfind] at h
    | some old_pair =>
      cases hlk : s.get_seat seat_id with
      | none => simp [hfind, hlk] at h
      | some new_seat =>
        by_cases hst : new_seat.status ≠ SeatStatus.free
        · simp [hfind, hlk, hst] at h
        · simp [hfind, hlk, hst, ChangeSeat.undo]

/-- C2: the claimed undo sequence fails already at N = 1.  Whenever an
    execution submitted through execute_command returns true, the next
    undo_last raises instead of succeeding, because the popped command's undo
    is called with a None session. -/
theorem first_undo_after_success_raises (p : BookingProcessor) (c : Command)
    (s : EventSession) (seat_id : String) (user : User)
    (h : (p.execute_command c s seat_id user).1 = true) :
    (p.execute_command c s seat_id user).2.2.1.undo_last = Except.error () := by
  unfold BookingProcessor.execute_command at h ⊢
  by_cases hr : (c.execute s seat_id user).1 = true
  · simp only [hr, if_true]
    unfold BookingProcessor.undo_last
    have hlast : (p.hist ++ [((c.execute s seat_id user).2.1, s.session_id, seat_id, user)]).getLast?
        = some ((c.execute s seat_id user).2.1, s.session_id, seat_id, user) := by
      simp
    simp only [hlast, executed_command_undo_none_raises c s seat_id user hr seat_id user]
  · simp only [eq_self_iff_true] at hr
    rw [if_neg hr] at h
    exact absurd h (by simp [hr])

theorem first_undo_after_success_raises_witness :
    (mkBookingProcessor.execute_command Command.purchaseTicket
        ((mkEventSession "s2" "t").add_seat (mkSeat "B1" "B" 1)) "B1"
        { user_id := "u2", name := "Ivan" }).2.2.1.undo_last = Except.error () :=
  first_undo_after_success_raises mkBookingProcessor Command.purchaseTicket
    ((mkEventSession "s2" "t").add_seat (mkSeat "B1" "B" 1)) "B1"
    { user_id := "u2", name := "Ivan" } rfl

/-- C3: undo_last on an empty history returns False and changes nothing (it
    touches no session and leaves the processor as it was); on a non-empty
    history it pops exactly the most recent entry and invokes that command's
    undo with the recorded seat_id and user and a None session, returning
    undo's outcome verbatim (an exception inside undo propagates). -/
theorem undo_last_spec (p : BookingProcessor) :
    (p.hist = [] → p.undo_last = Except.ok (false, p)) ∧
    (∀ c sid seat_id user, p.hist.getLast? = some (c, sid, seat_id, user) →
      p.undo_last = (c.undo none seat_id user).map
        (fun r => (r.1, { hist := p.hist.dropLast }))) := by
  constructor
  · intro h
    unfold BookingProcessor.undo_last
    simp [h]
  · intro c sid seat_id user h
    unfold BookingProcessor.undo_last
    simp only [h]
    cases hr : c.undo none seat_id user with
    | error e => simp [Except.map]
    | ok r =>
      obtain ⟨b, so⟩ := r
      simp [Except.map]

theorem undo_last_spec_witness :
    BookingProcessor.undo_last { hist := [] } =
      Except.ok (false, ({ hist := [] } : BookingProcessor)) ∧
    BookingProcessor.undo_last
        { hist := [(Command.changeSeat none, "s1", "A2", { user_id := "u1", name := "Olga" })] } =
      Except.ok (false, ({ hist := [] } : BookingProcessor)) := by
  constructor
  · exact (undo_last_spec { hist := [] }).1 rfl
  · have h := (undo_last_spec
        { hist := [(Command.changeSeat none, "s1", "A2", { user_id := "u1", name := "Olga" })] }).2
      (Command.changeSeat none) "s1" "A2" { user_id := "u1", name := "Olga" } rfl
    rw [h]
    rfl

/-- C4: every command variant's execute is idempotent-on-failure: whenever the
    guard precondition is violated (seat absent, wrong status, wrong occupant,
    or for ChangeSeat no eligible old seat or a non-FREE target), execute
    returns False and performs zero mutation: the session and the command's
    own recorded state are returned exactly as they were. -/
theorem execute_idempotent_on_failure (s : EventSession) (seat_id : String) (user : User)
    (st : ChangeSeatState) :
    ((∀ seat, s.get_seat seat_id = some seat → seat.status ≠ SeatStatus.free) →
      ReserveSeat.execute s seat_id user = (false, s)) ∧
    ((∀ seat, s.get_seat seat_id = some seat →
        ¬(seat.status = SeatStatus.reserved ∧ seat.current_user = some user)) →
      CancelReservation.execute s seat_id user = (false, s)) ∧
    ((∀ seat, s.get_seat seat_id = some seat →
        seat.status ≠ SeatStatus.reserved ∧ seat.status ≠ SeatStatus.free) →
      PurchaseTicket.execute s seat_id user = (false, s)) ∧
    (((∀ p ∈ s.seats, ¬(p.2.current_user = some user ∧
          (p.2.status = SeatStatus.reserved ∨ p.2.status = SeatStatus.sold))) ∨
        (∀ seat, s.get_seat seat_id = some seat → seat.status ≠ SeatStatus.free)) →
      ChangeSeat.execute st s seat_id user = (false, st, s)) := by
  refine ⟨?_, ?_, ?_, ?_⟩
  · intro h
    cases hlk : s.get_seat seat_id with
    | none => simp [ReserveSeat.execute, hlk]
    | some seat => simp [ReserveSeat.execute, hlk, h seat hlk]
  · intro h
    cases hlk : s.get_seat seat_id with
    | none => simp [CancelReservation.execute, hlk]
    | some seat =>
      rcases not_and_or.mp (h seat hlk) with hv | hv <;>
        simp [CancelReservation.execute, hlk, hv]
  · intro h
    cases hlk : s.get_seat seat_id with
    | none => simp [PurchaseTicket.execute, hlk]
    | some seat => simp [PurchaseTicket.execute, hlk, (h seat hlk).1, (h seat hlk).2]
  · intro h
    rcases h with h | h
    · simp [ChangeSeat.execute, findUserSeat_eq_none user s.seats h]
    · cases hfind : findUserSeat user s.seats with
      | none => simp [ChangeSeat.execute, hfind]
      | some old_pair =>
        cases hlk : s.get_seat seat_id with
        | none => simp [ChangeSeat.execute, hfind, hlk]
        | some new_seat => simp [ChangeSeat.execute, hfind, hlk, h new_seat hlk]

theorem execute_idempotent_on_failure_witness :
    ReserveSeat.execute (mkEventSession "s0" "t") "A1" userU1 =
      (false, mkEventSession "s0" "t") ∧
    CancelReservation.execute (mkEventSession "s0" "t") "A1" userU1 =
      (false, mkEventSession "s0" "t") ∧
    PurchaseTicket.execute (mkEventSession "s0" "t") "A1" userU1 =
      (false, mkEventSession "s0" "t") ∧
    ChangeSeat.execute none (mkEventSession "s0" "t") "A1" userU1 =
      (false, none, mkEventSession "s0" "t") := by
  have h := execute_idempotent_on_failure (mkEventSession "s0" "t") "A1" userU1 none
  have habs : ∀ seat, (mkEventSession "s0" "t").get_seat "A1" = some seat → False := by
    intro seat hs
    simp [mkEventSession, EventSession.get_seat, lookupAssoc] at hs
  refine ⟨h.1 ?_, h.2.1 ?_, h.2.2.1 ?_, h.2.2.2 (Or.inr ?_)⟩
  · exact fun seat hs => absurd hs (fun hh => habs seat hh)
  · exact fun seat hs => absurd hs (fun hh => habs seat hh)
  · exact fun seat hs => absurd hs (fun hh => habs seat hh)
  · exact fun seat hs => absurd hs (fun hh => habs seat hh)

/-- C6: whenever ChangeSeat.execute returns true on a well-formed session,
    the target seat existed FREE, some seat of the session was held by the
    user with status RESERVED or SOLD, and afterwards that old seat is
    FREE/None while the target carries the old seat's prior status and the
    user; every other seat is unchanged. -/
theorem changeSeat_execute_success_spec (st : ChangeSeatState) (s : EventSession)
    (new_seat_id : String) (user : User) (hwf : wfSession s)
    (hsucc : (ChangeSeat.execute st s new_seat_id user).1 = true) :
    ∃ old_id old_seat new_seat,
      old_id ≠ new_seat_id ∧
      s.get_seat old_id = some old_seat ∧
      old_seat.current_user = some user ∧
      (old_seat.status = SeatStatus.reserved ∨ old_seat.status = SeatStatus.sold) ∧
      s.get_seat new_seat_id = some new_seat ∧
      new_seat.status = SeatStatus.free ∧
      (ChangeSeat.execute st s new_seat_id user).2.2.get_seat old_id =
        some { old_seat with status := SeatStatus.free, current_user := none } ∧
      (ChangeSeat.execute st s new_seat_id user).2.2.get_seat new_seat_id =
        some { new_seat with status := old_seat.status, current_user := some user } ∧
      ∀ k, k ≠ old_id → k ≠ new_seat_id →
        (ChangeSeat.execute st s new_seat_id user).2.2.get_seat k = s.get_seat k := by
  cases hfind : findUserSeat user s.seats with
  | none => simp [ChangeSeat.execute, hfind] at hsucc
  | some old_pair =>
    obtain ⟨hmem, hocc, hstat⟩ := findUserSeat_spec user s.seats old_pair hfind
    cases hlk : s.get_seat new_seat_id with
    | none => simp [ChangeSeat.execute, hfind, hlk] at hsucc
    | some new_seat =>
      by_cases hst : new_seat.status ≠ SeatStatus.free
      · simp [ChangeSeat.execute, hfind, hlk, hst] at hsucc
      · have hfree : new_seat.status = SeatStatus.free := not_not.mp hst
        have hexec : (ChangeSeat.execute st s new_seat_id user).2.2 =
            (s.setSeat old_pair.1
              { old_pair.2 with status := SeatStatus.free, current_user := none }).setSeat
              new_seat_id
              { new_seat with status := old_pair.2.status, current_user := some user } := by
          simp only [ChangeSeat.execute, hfind, hlk]
          rw [if_neg hst]
        have holdlk : s.get_seat old_pair.1 = some old_pair.2 :=
          lookup_of_mem_nodup s.seats old_pair hmem hwf.1
        have hne : old_pair.1 ≠ new_seat_id := by
          intro he
          rw [he, hlk] at holdlk
          have heq : new_seat.status = old_pair.2.status := by
            rw [(Option.some.injEq _ _).mp holdlk]
          rcases hstat with h1 | h1 <;> rw [hfree, h1] at heq <;> cases heq
        refine ⟨old_pair.1, old_pair.2, new_seat, hne, holdlk, hocc, hstat, rfl, hfree,
          ?_, ?_, ?_⟩
        · rw [hexec, get_seat_setSeat_ne _ old_pair.1 new_seat_id _ hne]
          exact get_seat_setSeat_self s old_pair.1 old_pair.2 _ holdlk
        · rw [hexec]
          refine get_seat_setSeat_self _ new_seat_id new_seat _ ?_
          rw [get_seat_setSeat_ne _ new_seat_id old_pair.1 _ (Ne.symm hne)]
          exact hlk
        · intro k hk1 hk2
          rw [hexec, get_seat_setSeat_ne _ k new_seat_id _ hk2,
            get_seat_setSeat_ne _ k old_pair.1 _ hk1]

theorem changeSeat_execute_success_spec_witness :
    ∃ old_id old_seat new_seat,
      old_id ≠ "A2" ∧
      sessionAB.get_seat old_id = some old_seat ∧
      old_seat.current_user = some userU1 ∧
      (old_seat.status = SeatStatus.reserved ∨ old_seat.status = SeatStatus.sold) ∧
      sessionAB.get_seat "A2" = some new_seat ∧
      new_seat.status = SeatStatus.free ∧
      (ChangeSeat.execute none sessionAB "A2" userU1).2.2.get_seat old_id =
        some { old_seat with status := SeatStatus.free, current_user := none } ∧
      (ChangeSeat.execute none sessionAB "A2" userU1).2.2.get_seat "A2" =
        some { new_seat with status := old_seat.status, current_user := some userU1 } ∧
      ∀ k, k ≠ old_id → k ≠ "A2" →
        (ChangeSeat.execute none sessionAB "A2" userU1).2.2.get_seat k =
          sessionAB.get_seat k :=
  changeSeat_execute_success_spec none sessionAB "A2" userU1 ⟨by decide, by decide⟩
    (by decide)

/-- C7: Purchase.execute succeeds from both starting states: on an existing
    FREE seat, and on a seat RESERVED with this user as occupant; in both
    cases it returns true and the seat becomes SOLD with this occupant. -/
theorem purchase_execute_from_free_or_reserved (s : EventSession) (seat_id : String)
    (user : User) (seat : Seat) (hlk : s.get_seat seat_id = some seat)
    (hst : seat.status = SeatStatus.free ∨
      (seat.status = SeatStatus.reserved ∧ seat.current_user = some user)) :
    (PurchaseTicket.execute s seat_id user).1 = true ∧
    (PurchaseTicket.execute s seat_id user).2.get_seat seat_id =
      some { seat with status := SeatStatus.sold, current_user := some user } := by
  have hcond : ¬(seat.status ≠ SeatStatus.reserved ∧ seat.status ≠ SeatStatus.free) := by
    rcases hst with h | h
    · exact fun hc => hc.2 h
    · exact fun hc => hc.1 h.1
  have hexec : PurchaseTicket.execute s seat_id user =
      (true, s.setSeat seat_id
        { seat with status := SeatStatus.sold, current_user := some user }) := by
    simp only [PurchaseTicket.execute, hlk]
    rw [if_neg hcond]
  rw [hexec]
  exact ⟨rfl, get_seat_setSeat_self s seat_id seat _ hlk⟩

theorem purchase_execute_from_free_or_reserved_witness :
    ((PurchaseTicket.execute sessionAB "A2" userU2).1 = true ∧
      (PurchaseTicket.execute sessionAB "A2" userU2).2.get_seat "A2" =
        some { (mkSeat "A2" "A" 2) with
            status := SeatStatus.sold, current_user := some userU2 }) ∧
    ((PurchaseTicket.execute sessionAB "A1" userU1).1 = true ∧
      (PurchaseTicket.execute sessionAB "A1" userU1).2.get_seat "A1" =
        some { seatA1r with status := SeatStatus.sold, current_user := some userU1 }) :=
  ⟨purchase_execute_from_free_or_reserved sessionAB "A2" userU2 (mkSeat "A2" "A" 2)
      (by decide) (Or.inl (by decide)),
    purchase_execute_from_free_or_reserved sessionAB "A1" userU1 seatA1r
      (by decide) (Or.inr (by decide))⟩

/-- C8: Purchase.undo on a seat SOLD to this user always succeeds and leaves
    the seat FREE with no occupant, never RESERVED, with no assumption about
    whether the purchase had come from a FREE or a RESERVED seat. -/
theorem purchase_undo_restores_free (s : EventSession) (seat_id : String) (user : User)
    (seat : Seat) (hlk : s.get_seat seat_id = some seat)
    (hst : seat.status = SeatStatus.sold) (hocc : seat.current_user = some user) :
    ∃ s', PurchaseTicket.undo (some s) seat_id user = Except.ok (true, some s') ∧
      s'.get_seat seat_id =
        some { seat with status := SeatStatus.free, current_user := none } := by
  have hundo : PurchaseTicket.undo (some s) seat_id user = Except.ok (true, some
      (s.setSeat seat_id { seat with status := SeatStatus.free, current_user := none })) := by
    simp only [PurchaseTicket.undo, hlk]
    rw [if_neg (by simp [hst, hocc])]
  exact ⟨_, hundo, get_seat_setSeat_self s seat_id seat _ hlk⟩

theorem purchase_undo_restores_free_witness :
    ∃ s', PurchaseTicket.undo (some sessionAB) "B1" userU1 = Except.ok (true, some s') ∧
      s'.get_seat "B1" =
        some { seatB1s with status := SeatStatus.free, current_user := none } :=
  purchase_undo_restores_free sessionAB "B1" userU1 seatB1s (by decide) (by decide)
    (by decide)

/-- C9: ChangeSeat.undo ignores the passed user and validates nothing about
    the target's current state: with a recorded old seat and both seats
    present it returns true, unconditionally frees the target and restores
    the old seat to the recorded status and recorded user, whatever user is
    passed and whatever the target currently holds. -/
theorem changeSeat_undo_unconditional (s : EventSession) (old_id new_id : String)
    (old_status : SeatStatus) (old_user passed_user : User) (old_seat new_seat : Seat)
    (hold : s.get_seat old_id = some old_seat) (hnew : s.get_seat new_id = some new_seat)
    (hne : old_id ≠ new_id) :
    ∃ s', ChangeSeat.undo (some (old_id, old_status, old_user)) (some s) new_id
        passed_user = Except.ok (true, some s') ∧
      s'.get_seat new_id =
        some { new_seat with status := SeatStatus.free, current_user := none } ∧
      s'.get_seat old_id =
        some { old_seat with status := old_status, current_user := some old_user } ∧
      ∀ k, k ≠ old_id → k ≠ new_id → s'.get_seat k = s.get_seat k := by
  unfold ChangeSeat.undo
  simp only [hold, hnew]
  refine ⟨_, rfl, ?_, ?_, ?_⟩
  · rw [get_seat_setSeat_ne _ new_id old_id _ (Ne.symm hne)]
    exact get_seat_setSeat_self s new_id new_seat _ hnew
  · refine get_seat_setSeat_self _ old_id old_seat _ ?_
    rw [get_seat_setSeat_ne _ old_id new_id _ hne]
    exact hold
  · intro k hk1 hk2
    rw [get_seat_setSeat_ne _ k old_id _ hk1, get_seat_setSeat_ne _ k new_id _ hk2]

theorem changeSeat_undo_unconditional_witness :
    ∃ s', ChangeSeat.undo (some ("B1", SeatStatus.sold, userU1)) (some sessionAB) "A1"
        userU2 = Except.ok (true, some s') ∧
      s'.get_seat "A1" =
        some { seatA1r with status := SeatStatus.free, current_user := none } ∧
      s'.get_seat "B1" =
        some { seatB1s with status := SeatStatus.sold, current_user := some userU1 } ∧
      ∀ k, k ≠ "B1" → k ≠ "A1" → s'.get_seat k = sessionAB.get_seat k :=
  changeSeat_undo_unconditional sessionAB "B1" "A1" SeatStatus.sold userU1 userU2
    seatB1s seatA1r (by decide) (by decide) (by decide)

/-- C10: Purchase.execute never checks the occupant of a RESERVED seat: a
    different user B buying a seat RESERVED by A succeeds and overwrites the
    seat to SOLD with occupant B. -/
theorem purchase_overwrites_reserved_other_user (s : EventSession) (seat_id : String)
    (a b : User) (seat : Seat) (hlk : s.get_seat seat_id = some seat)
    (hst : seat.status = SeatStatus.reserved) (hocc : seat.current_user = some a)
    (hab : a ≠ b) :
    (PurchaseTicket.execute s seat_id b).1 = true ∧
    (PurchaseTicket.execute s seat_id b).2.get_seat seat_id =
      some { seat with status := SeatStatus.sold, current_user := some b } := by
  have hexec : PurchaseTicket.execute s seat_id b =
      (true, s.setSeat seat_id
        { seat with status := SeatStatus.sold, current_user := some b }) := by
    simp only [PurchaseTicket.execute, hlk]
    rw [if_neg (by simp [hst])]
  rw [hexec]
  exact ⟨rfl, get_seat_setSeat_self s seat_id seat _ hlk⟩

theorem purchase_overwrites_reserved_other_user_witness :
    (PurchaseTicket.execute sessionAB "A1" userU2).1 = true ∧
    (PurchaseTicket.execute sessionAB "A1" userU2).2.get_seat "A1" =
      some { seatA1r with status := SeatStatus.sold, current_user := some userU2 } :=
  purchase_overwrites_reserved_other_user sessionAB "A1" userU1 userU2 seatA1r
    (by decide) (by decide) (by decide) (by decide)

end Booking
